import Mathlib

/-!
Verification development for the feed-ingestion core in
src/src/api/parser/src/parser-queue.js.

Shallow embedding conventions:
- JavaScript exceptions travel on the error channel of Except; a caught
  exception corresponds to matching on the error constructor.
- The Feed Store (the data/feed module) is not part of src, so its
  read/write contract is modelled from spec section 4.2; every definition
  modelled that way says so in its doc comment.
- The asynchronous Promise.all in processFeeds is rendered as a
  left-to-right sequential traversal threading the store state; an error
  carries the store mutations and queue jobs already performed, mirroring
  the fact that completed store writes and addFeed calls are not rolled
  back when the aggregate promise rejects.
-/

deriving instance DecidableEq for Except

/-- Feed record persisted by the Feed Store (spec section 3): store-assigned
id, source url (the dedup key), caching metadata (a conditional-fetch token
such as an etag), author reference, validity flag and nullable invalidation
reason. -/
structure Feed where
  id : Nat
  url : String
  etag : String
  author : String
  valid : Bool
  reason : Option String
deriving DecidableEq

/-- DiscoveredSource payload as handed to updateFeed and Feed.create: the
fields Feed.create persists. A fresh discovery carries an empty
conditional-fetch token. -/
structure FeedData where
  url : String
  etag : String
  author : String
deriving DecidableEq

/-- Errors travelling on the exception channel: the DuplicateUrl rejection
of spec section 4.2 and 7, and the TypeError raised by dereferencing a
field of a null value. -/
inductive Err where
  | duplicateUrl
  | nullDeref
deriving DecidableEq

/-- Modelled from the spec: the Feed Store state (spec section 4.2; the
data/feed module is not under src). Feeds are kept in insertion order and
ids are store-assigned from a counter. -/
structure Store where
  feeds : List Feed
  nextId : Nat
deriving DecidableEq

/-- Modelled from the spec: byUrl(url), exact match lookup used for dedup
(spec section 4.2). -/
def Store.byUrl (st : Store) (url : String) : Option Feed :=
  st.feeds.find? (fun f => f.url == url)

/-- Modelled from the spec: byId(id) lookup (spec section 4.2). -/
def Store.byId (st : Store) (i : Nat) : Option Feed :=
  st.feeds.find? (fun f => f.id == i)

/-- Modelled from the spec: all() lists every persisted Feed
(spec section 4.2). -/
def Store.all (st : Store) : List Feed :=
  st.feeds

/-- Record built by Feed.create from a discovery payload: a store-assigned
id, the payload fields, valid with no invalidation reason. -/
def Feed.ofData (i : Nat) (fd : FeedData) : Feed :=
  { id := i, url := fd.url, etag := fd.etag, author := fd.author,
    valid := true, reason := none }

/-- Modelled from the spec: create(feedData) returns the new Feed id and
fails with DuplicateUrl if a record with the same url already exists
(spec section 4.2). -/
def Store.create (st : Store) (fd : FeedData) : Except Err (Nat × Store) :=
  match st.byUrl fd.url with
  | some _ => .error .duplicateUrl
  | none => .ok (st.nextId,
      { feeds := st.feeds ++ [Feed.ofData st.nextId fd], nextId := st.nextId + 1 })

/-- Modelled from the spec: setInvalid(id, reason) transitions the validity
flag and records the reason; idempotent (spec section 4.2). -/
def Store.setInvalid (st : Store) (i : Nat) (r : String) : Store :=
  Store.mk
    (st.feeds.map (fun f =>
      if f.id == i then { f with valid := false, reason := some r } else f))
    st.nextId

/-- Store well-formedness: every persisted id is below the counter the
store will assign next (ids are store-assigned, spec section 3). -/
def Store.WF (st : Store) : Prop :=
  ∀ f ∈ st.feeds, f.id < st.nextId

/-- Job payload accepted by feedQueue.addFeed (spec section 6): an object
whose only field is the feed id, as in the literal at line 52. -/
structure Job where
  id : Nat
deriving DecidableEq

/-- Embedding of updateFeed (parser-queue.js lines 14 to 29): look the url
up; if found return the persisted record and leave the store untouched,
otherwise create from the discovery payload, re-read by the id create
returned, and return that re-read value. The source has no try or catch, so
a create failure propagates; the re-read result is returned as-is, which is
null when byId misses, mirroring the un-checked return of currentFeed. -/
def updateFeed (feedData : FeedData) (st : Store) : Except Err (Option Feed × Store) :=
  match st.byUrl feedData.url with
  | some existingFeed => .ok (some existingFeed, st)
  | none =>
    match st.create feedData with
    | .error e => .error e
    | .ok (i, st1) => .ok (st1.byId i, st1)

/-- Control flow of updateFeed with the store backend abstracted into three
oracle functions, so that backend behaviors the spec allows (the defensive
DuplicateUrl rejection of section 4.2 racing a stale byUrl miss) can be
exercised. The branch structure is exactly that of lines 14 to 29: no
handler around create, so its error is returned unchanged. -/
def updateFeedWith (lookupUrl : String → Option Feed)
    (createFeed : FeedData → Except Err Nat) (lookupId : Nat → Option Feed)
    (feedData : FeedData) : Except Err (Option Feed) :=
  match lookupUrl feedData.url with
  | some existingFeed => .ok (some existingFeed)
  | none =>
    match createFeed feedData with
    | .error e => .error e
    | .ok i => .ok (lookupId i)

/-- Embedding of invalidateFeed (lines 35 to 40): byId, then
feed.setInvalid with the fixed reason string. When byId finds nothing the
method call on null raises a TypeError (nullDeref) before any store
write. -/
def invalidateFeed (i : Nat) (st : Store) : Except Err Store :=
  match st.byId i with
  | none => .error .nullDeref
  | some feed => .ok (st.setInvalid feed.id "unknown reason")

/-- Embedding of the failed-event handler (lines 98 to 100): run
invalidateFeed and catch any rejection, logging it; the store is unchanged
on error. -/
def onFailed (i : Nat) (st : Store) : Store :=
  match invalidateFeed i st with
  | .error _ => st
  | .ok st1 => st1

/-- Embedding of processFeeds (lines 46 to 55): for each element, resolve
it through updateFeed and then enqueue a job holding only the resolved id.
The element type is Option FeedData because the flattened directory list
can contain null (see flattenUsers); updateFeed applied to null raises a
TypeError at feedData.url, and a null resolution raises one at
currentFeed.id. Errors carry the store state and jobs already produced. -/
def processFeeds : List (Option FeedData) → Store →
    Except (Err × Store × List Job) (Store × List Job)
  | [], st => .ok (st, [])
  | none :: _, st => .error (.nullDeref, st, [])
  | some fd :: rest, st =>
    match updateFeed fd st with
    | .error e => .error (e, st, [])
    | .ok (none, st1) => .error (.nullDeref, st1, [])
    | .ok (some currentFeed, st1) =>
      match processFeeds rest st1 with
      | .ok (st2, jobs) => .ok (st2, Job.mk currentFeed.id :: jobs)
      | .error (e, st2, jobs) => .error (e, st2, Job.mk currentFeed.id :: jobs)

/-- User record of the directory response body (spec section 6): a flag and
a feeds array. -/
structure UserRec where
  isFlagged : Bool
  feeds : List FeedData
deriving DecidableEq

/-- Directory fetch response: HTTP status and JSON body. -/
structure DirResponse where
  status : Nat
  body : List UserRec
deriving DecidableEq

/-- Embedding of line 71: res.body.flatMap of a function returning the
feeds array for an unflagged user and null for a flagged one. flatMap only
spreads array return values and keeps a non-array value as a single
element, so a flagged user contributes the value null itself (here none)
while each feed of an unflagged user becomes one (non-null) element. -/
def flattenUsers (body : List UserRec) : List (Option FeedData) :=
  body.flatMap (fun user => if !user.isFlagged then user.feeds.map some else [none])

/-- Observable outcome of one pass: the store after the pass, the addFeed
calls made, and whether the catch at the pass boundary (lines 76 to 78)
fired. -/
structure PassResult where
  store : Store
  jobs : List Job
  failed : Bool
deriving DecidableEq

/-- Projection of a persisted Feed to the payload fields updateFeed reads;
elements of the pass list are consumed through their url only, so spreading
persisted records into the list is rendered through this projection. -/
def Feed.toData (f : Feed) : FeedData :=
  { url := f.url, etag := f.etag, author := f.author }

/-- Embedding of processAllFeeds (lines 61 to 79): res = none models the
fetch itself rejecting, which the surrounding catch absorbs. On a 200
response the body is flattened, the persisted feeds are read, and the
concatenation of persisted records and flattened sources is processed; any
other status skips the body of the if without error. -/
def processAllFeeds (res : Option DirResponse) (st : Store) : PassResult :=
  match res with
  | none => { store := st, jobs := [], failed := true }
  | some r =>
    if r.status = 200 then
      match processFeeds ((st.all.map fun f => some f.toData) ++ flattenUsers r.body) st with
      | .ok (st1, jobs) => { store := st1, jobs := jobs, failed := false }
      | .error (_, st1, jobs) => { store := st1, jobs := jobs, failed := true }
    else { store := st, jobs := [], failed := false }

/-- Resolution oracle written from the words of C10: run updateFeed on each
element in order, collecting the resolved Feed records and threading the
store, with no queue interaction; none when any element fails to resolve.
Compared against processFeeds to show the queue receives exactly the
resolved ids. -/
def resolveAllFeeds : List (Option FeedData) → Store → Option (List Feed × Store)
  | [], st => some ([], st)
  | none :: _, _ => none
  | some fd :: rest, st =>
    match updateFeed fd st with
    | .error _ => none
    | .ok (none, _) => none
    | .ok (some currentFeed, st1) =>
      match resolveAllFeeds rest st1 with
      | none => none
      | some (fs, st2) => some (currentFeed :: fs, st2)

/-- Cycle Controller trigger model (lines 81 to 108): loadFeedsIntoQueue
has no Running flag or guard of any kind, and both startParserQueue and the
drained subscription invoke it unconditionally, so every trigger adds one
in-flight pass; a pass settling removes one. The state is the number of
passes currently in flight. -/
inductive CtrlStep : Nat → Nat → Prop
  | trigger (n : Nat) : CtrlStep n (n + 1)
  | settle (n : Nat) : CtrlStep (n + 1) n

/-- States of the trigger model reachable from the idle state. -/
def CtrlReachable (n : Nat) : Prop :=
  Relation.ReflTransGen CtrlStep 0 n

/-! ## Helper lemmas -/

/-- updateFeed on a url byUrl resolves: the persisted record is returned
and the store is untouched. -/
lemma updateFeed_found_eq (fd : FeedData) (st : Store) (f : Feed)
    (h : st.byUrl fd.url = some f) : updateFeed fd st = .ok (some f, st) := by
  unfold updateFeed
  rw [h]

/-- Feeds of a well-formed store never carry the id the store will assign
next. -/
lemma find_next_id_none (st : Store) (hwf : st.WF) :
    st.feeds.find? (fun f => f.id == st.nextId) = none := by
  rw [List.find?_eq_none]
  intro f hf
  simp only [beq_iff_eq]
  exact Nat.ne_of_lt (hwf f hf)

/-- Looking a fresh id up after appending the record created under that id
finds exactly the appended record. -/
lemma find_id_append_fresh (l : List Feed) (n : Nat) (fd : FeedData)
    (h : l.find? (fun f => f.id == n) = none) :
    List.find? (fun f => f.id == n) (l ++ [Feed.ofData n fd]) = some (Feed.ofData n fd) := by
  rw [List.find?_append, h]
  simp [Feed.ofData]

/-- Looking a url up after appending a freshly created record for that url
finds exactly the appended record, provided the url was absent before. -/
lemma find_url_append_fresh (l : List Feed) (n : Nat) (fd : FeedData)
    (h : l.find? (fun f => f.url == fd.url) = none) :
    List.find? (fun f => f.url == fd.url) (l ++ [Feed.ofData n fd]) = some (Feed.ofData n fd) := by
  rw [List.find?_append, h]
  simp [Feed.ofData]

/-- updateFeed on a fresh url: the record built from the payload is
appended, the counter advances, and that record is returned. -/
lemma updateFeed_create_eq (fd : FeedData) (st : Store) (hwf : st.WF)
    (h : st.byUrl fd.url = none) :
    updateFeed fd st =
      .ok (some (Feed.ofData st.nextId fd),
        ⟨st.feeds ++ [Feed.ofData st.nextId fd], st.nextId + 1⟩) := by
  simp only [updateFeed, Store.create, h, Store.byId]
  rw [find_id_append_fresh st.feeds st.nextId fd (find_next_id_none st hwf)]

/-- The setInvalid map rewrites exactly the record a byId lookup finds:
find? commutes with the pointwise invalidation. -/
lemma find_setInvalid (l : List Feed) (x : Nat) (r : String) (f : Feed)
    (h : l.find? (fun g => g.id == x) = some f) :
    (l.map (fun g =>
        if g.id == x then { g with valid := false, reason := some r } else g)).find?
      (fun g => g.id == x) = some { f with valid := false, reason := some r } := by
  have hfun : ((fun g => g.id == x) ∘ (fun g : Feed =>
      if g.id == x then { g with valid := false, reason := some r } else g)) =
      (fun g : Feed => g.id == x) := by
    funext g
    by_cases hg : g.id = x <;> simp [hg]
  have hf : (f.id == x) = true := by
    have hx := List.find?_some h
    simpa using hx
  rw [List.find?_map, hfun, h]
  simp [hf]
  intro hn
  exact absurd (by simpa using hf) hn

/-- When the failed feed id exists, the handler ends in the store with that
id invalidated under the fixed reason. -/
lemma onFailed_found_eq (x : Nat) (st : Store) (f : Feed)
    (h : st.byId x = some f) :
    onFailed x st = st.setInvalid x "unknown reason" := by
  have hfx : f.id = x := by
    have hp := List.find?_some h
    simpa using hp
  simp only [onFailed, invalidateFeed, h, hfx]

/-- A successful processFeeds run makes one addFeed call per input
element. -/
lemma processFeeds_ok_length (feeds : List (Option FeedData)) (st st1 : Store)
    (jobs : List Job) (h : processFeeds feeds st = .ok (st1, jobs)) :
    jobs.length = feeds.length := by
  induction feeds generalizing st jobs with
  | nil =>
    simp only [processFeeds, Except.ok.injEq, Prod.mk.injEq] at h
    simp [← h.2]
  | cons hd tl ih =>
    cases hd with
    | none => simp [processFeeds] at h
    | some fd =>
      simp only [processFeeds] at h
      cases hu : updateFeed fd st with
      | error e => simp [hu] at h
      | ok pr =>
        obtain ⟨of, stA⟩ := pr
        cases of with
        | none => simp [hu] at h
        | some cf =>
          simp only [hu] at h
          cases hp : processFeeds tl stA with
          | error tr =>
            obtain ⟨e2, stB, jbs⟩ := tr
            simp [hp] at h
          | ok pr2 =>
            obtain ⟨stB, jbs⟩ := pr2
            simp only [hp, Except.ok.injEq, Prod.mk.injEq] at h
            obtain ⟨hst, hjobs⟩ := h
            subst hst
            simp [← hjobs, ih stA jbs hp]

/-- A successful processFeeds run agrees with the resolution oracle: the
same final store results and the jobs are exactly the resolved ids in
order. -/
lemma processFeeds_resolves (feeds : List (Option FeedData)) (st st1 : Store)
    (jobs : List Job) (h : processFeeds feeds st = .ok (st1, jobs)) :
    ∃ fs, resolveAllFeeds feeds st = some (fs, st1) ∧
      jobs = fs.map (fun f => Job.mk f.id) := by
  induction feeds generalizing st jobs with
  | nil =>
    simp only [processFeeds, Except.ok.injEq, Prod.mk.injEq] at h
    exact ⟨[], by simp [resolveAllFeeds, h.1], by simp [← h.2]⟩
  | cons hd tl ih =>
    cases hd with
    | none => simp [processFeeds] at h
    | some fd =>
      simp only [processFeeds] at h
      cases hu : updateFeed fd st with
      | error e => simp [hu] at h
      | ok pr =>
        obtain ⟨of, stA⟩ := pr
        cases of with
        | none => simp [hu] at h
        | some cf =>
          simp only [hu] at h
          cases hp : processFeeds tl stA with
          | error tr =>
            obtain ⟨e2, stB, jbs⟩ := tr
            simp [hp] at h
          | ok pr2 =>
            obtain ⟨stB, jbs⟩ := pr2
            simp only [hp, Except.ok.injEq, Prod.mk.injEq] at h
            obtain ⟨hst, hjobs⟩ := h
            subst hst
            obtain ⟨fs, hr, hjb⟩ := ih stA jbs hp
            refine ⟨cf :: fs, ?_, ?_⟩
            · simp [resolveAllFeeds, hu, hr]
            · simp [← hjobs, hjb]

/-- A failing processFeeds run also only enqueues resolved ids: the jobs
carried in the error are exactly the resolved feeds of the successfully
processed prefix of the input, in order. -/
lemma processFeeds_error_jobs (feeds : List (Option FeedData)) (st : Store)
    (e : Err) (st1 : Store) (jobs : List Job)
    (h : processFeeds feeds st = .error (e, st1, jobs)) :
    ∃ k fs stk, resolveAllFeeds (feeds.take k) st = some (fs, stk) ∧
      jobs = fs.map (fun f => Job.mk f.id) := by
  induction feeds generalizing st jobs e st1 with
  | nil => simp [processFeeds] at h
  | cons hd tl ih =>
    cases hd with
    | none =>
      simp only [processFeeds, Except.error.injEq, Prod.mk.injEq] at h
      obtain ⟨-, -, hjobs⟩ := h
      exact ⟨0, [], st, by simp [resolveAllFeeds], by simp [← hjobs]⟩
    | some fd =>
      simp only [processFeeds] at h
      cases hu : updateFeed fd st with
      | error e2 =>
        simp only [hu, Except.error.injEq, Prod.mk.injEq] at h
        obtain ⟨-, -, hjobs⟩ := h
        exact ⟨0, [], st, by simp [resolveAllFeeds], by simp [← hjobs]⟩
      | ok pr =>
        obtain ⟨of, stA⟩ := pr
        cases of with
        | none =>
          simp only [hu, Except.error.injEq, Prod.mk.injEq] at h
          obtain ⟨-, -, hjobs⟩ := h
          exact ⟨0, [], st, by simp [resolveAllFeeds], by simp [← hjobs]⟩
        | some cf =>
          simp only [hu] at h
          cases hp : processFeeds tl stA with
          | ok pr2 =>
            obtain ⟨stB, jbs⟩ := pr2
            simp [hp] at h
          | error tr =>
            obtain ⟨e2, stB, jbs⟩ := tr
            simp only [hp, Except.error.injEq, Prod.mk.injEq] at h
            obtain ⟨-, -, hjobs⟩ := h
            obtain ⟨k, fs, stk, hr, hjb⟩ := ih stA e2 stB jbs hp
            refine ⟨k + 1, cf :: fs, stk, ?_, ?_⟩
            · simp [List.take_succ_cons, resolveAllFeeds, hu, hr]
            · simp [← hjobs, hjb]

/-! ## Claim theorems -/

/-- C3: for a discovered source whose url already has a persisted Feed
(byUrl returns a record), updateFeed returns that persisted record with
every field (caching metadata included) intact, not one built from the
discovery payload, and leaves the store exactly as it was: no create and no
write happens. -/
theorem updateFeed_prefers_persisted (fd : FeedData) (st : Store) (f : Feed)
    (h : st.byUrl fd.url = some f) :
    updateFeed fd st = .ok (some f, st) :=
  updateFeed_found_eq fd st f h

/-- Witness for C3: a persisted feed with non-empty caching metadata is
returned unchanged for a discovery of the same url with different
top-level fields, and the store is untouched. -/
theorem updateFeed_prefers_persisted_witness :
    updateFeed ⟨"u1", "", "bob"⟩ ⟨[⟨1, "u1", "etag-a", "alice", true, none⟩], 2⟩ =
      .ok (some ⟨1, "u1", "etag-a", "alice", true, none⟩,
        ⟨[⟨1, "u1", "etag-a", "alice", true, none⟩], 2⟩) :=
  updateFeed_prefers_persisted ⟨"u1", "", "bob"⟩
    ⟨[⟨1, "u1", "etag-a", "alice", true, none⟩], 2⟩
    ⟨1, "u1", "etag-a", "alice", true, none⟩ (by decide)

/-- C4: reconciling the same url twice in sequence resolves to the same
record both times (hence the same Feed id), the second call writes nothing,
and afterwards the store holds exactly one record for that url when it was
new, and no more records than before otherwise. -/
theorem updateFeed_url_idempotent (fd : FeedData) (st st1 st2 : Store) (f1 f2 : Feed)
    (hwf : st.WF)
    (h1 : updateFeed fd st = .ok (some f1, st1))
    (h2 : updateFeed fd st1 = .ok (some f2, st2)) :
    f2 = f1 ∧ st2 = st1 ∧
      st2.feeds.countP (fun g => g.url == fd.url) =
        max (st.feeds.countP (fun g => g.url == fd.url)) 1 := by
  cases hbu : st.byUrl fd.url with
  | some f =>
    rw [updateFeed_found_eq fd st f hbu] at h1
    simp only [Except.ok.injEq, Prod.mk.injEq, Option.some.injEq] at h1
    obtain ⟨rfl, rfl⟩ := h1
    rw [updateFeed_found_eq fd st f hbu] at h2
    simp only [Except.ok.injEq, Prod.mk.injEq, Option.some.injEq] at h2
    obtain ⟨rfl, rfl⟩ := h2
    refine ⟨rfl, rfl, ?_⟩
    have hmem : f ∈ st.feeds := List.mem_of_find?_eq_some hbu
    have hpf : (f.url == fd.url) = true := by
      have hx := List.find?_some hbu
      simpa using hx
    have hpos : 0 < st.feeds.countP (fun g => g.url == fd.url) :=
      List.countP_pos_iff.mpr ⟨f, hmem, hpf⟩
    omega
  | none =>
    rw [updateFeed_create_eq fd st hwf hbu] at h1
    simp only [Except.ok.injEq, Prod.mk.injEq, Option.some.injEq] at h1
    obtain ⟨rfl, rfl⟩ := h1
    have hnone : st.feeds.find? (fun g => g.url == fd.url) = none := hbu
    have hbu1 : Store.byUrl ⟨st.feeds ++ [Feed.ofData st.nextId fd], st.nextId + 1⟩ fd.url =
        some (Feed.ofData st.nextId fd) := by
      unfold Store.byUrl
      exact find_url_append_fresh st.feeds st.nextId fd hnone
    rw [updateFeed_found_eq fd _ _ hbu1] at h2
    simp only [Except.ok.injEq, Prod.mk.injEq, Option.some.injEq] at h2
    obtain ⟨rfl, rfl⟩ := h2
    refine ⟨rfl, rfl, ?_⟩
    have hzero : st.feeds.countP (fun g => g.url == fd.url) = 0 :=
      List.countP_eq_zero.mpr (List.find?_eq_none.mp hnone)
    rw [List.countP_append, hzero]
    simp [Feed.ofData]

/-- Witness for C4: a url reconciled twice starting from the empty store
resolves to the created record both times with no second write. -/
theorem updateFeed_url_idempotent_witness :
    (⟨0, "u1", "", "a", true, none⟩ : Feed) = ⟨0, "u1", "", "a", true, none⟩ ∧
      (⟨[⟨0, "u1", "", "a", true, none⟩], 1⟩ : Store) = ⟨[⟨0, "u1", "", "a", true, none⟩], 1⟩ ∧
      (⟨[⟨0, "u1", "", "a", true, none⟩], 1⟩ : Store).feeds.countP
          (fun g => g.url == (⟨"u1", "", "a"⟩ : FeedData).url) =
        max ((⟨[], 0⟩ : Store).feeds.countP
          (fun g => g.url == (⟨"u1", "", "a"⟩ : FeedData).url)) 1 :=
  updateFeed_url_idempotent ⟨"u1", "", "a"⟩ ⟨[], 0⟩
    ⟨[⟨0, "u1", "", "a", true, none⟩], 1⟩ ⟨[⟨0, "u1", "", "a", true, none⟩], 1⟩
    ⟨0, "u1", "", "a", true, none⟩ ⟨0, "u1", "", "a", true, none⟩
    (by intro f hf; simp at hf) (by decide) (by decide)

/-- C8: for a discovered source whose url has no persisted Feed, updateFeed
creates a new Feed from the discovered data, re-reads the record by the id
create returned, and returns that re-read record (a store record with a
store-assigned id, not the raw payload) to the caller. -/
theorem updateFeed_creates_and_rereads (fd : FeedData) (st : Store)
    (hwf : st.WF) (h : st.byUrl fd.url = none) :
    ∃ st1, st.create fd = .ok (st.nextId, st1) ∧
      st1.byId st.nextId = some (Feed.ofData st.nextId fd) ∧
      updateFeed fd st = .ok (some (Feed.ofData st.nextId fd), st1) := by
  refine ⟨⟨st.feeds ++ [Feed.ofData st.nextId fd], st.nextId + 1⟩, ?_, ?_, ?_⟩
  · unfold Store.create
    rw [h]
  · unfold Store.byId
    exact find_id_append_fresh st.feeds st.nextId fd (find_next_id_none st hwf)
  · exact updateFeed_create_eq fd st hwf h

/-- Witness for C8: creating from the empty store yields the record for id
0 and re-reads it. -/
theorem updateFeed_creates_and_rereads_witness :
    ∃ st1, (⟨[], 0⟩ : Store).create ⟨"u1", "", "a"⟩ = .ok ((⟨[], 0⟩ : Store).nextId, st1) ∧
      st1.byId (⟨[], 0⟩ : Store).nextId =
        some (Feed.ofData (⟨[], 0⟩ : Store).nextId ⟨"u1", "", "a"⟩) ∧
      updateFeed ⟨"u1", "", "a"⟩ ⟨[], 0⟩ =
        .ok (some (Feed.ofData (⟨[], 0⟩ : Store).nextId ⟨"u1", "", "a"⟩), st1) :=
  updateFeed_creates_and_rereads ⟨"u1", "", "a"⟩ ⟨[], 0⟩
    (by intro f hf; simp at hf) (by decide)

/-- C6: a failed queue event for feed id x leaves, when x exists, the store
with the record for x marked invalid under the non-empty fixed reason
string; when x does not exist the handler catches the rejection and the
store is completely unchanged. -/
theorem onFailed_invalidates (x : Nat) (st : Store) :
    (∀ f, st.byId x = some f →
      ∃ g, (onFailed x st).byId x = some g ∧ g.valid = false ∧
        g.reason = some "unknown reason" ∧ "unknown reason" ≠ "") ∧
    (st.byId x = none → onFailed x st = st) := by
  constructor
  · intro f h
    refine ⟨{ f with valid := false, reason := some "unknown reason" }, ?_, rfl, rfl, by decide⟩
    rw [onFailed_found_eq x st f h]
    exact find_setInvalid st.feeds x "unknown reason" f h
  · intro h
    simp only [onFailed, invalidateFeed, h]

/-- Witness for C6: an existing id is invalidated with the fixed reason and
a missing id leaves the store untouched. -/
theorem onFailed_invalidates_witness :
    (∃ g, (onFailed 1 ⟨[⟨1, "u1", "", "a", true, none⟩], 2⟩).byId 1 = some g ∧
      g.valid = false ∧ g.reason = some "unknown reason" ∧ "unknown reason" ≠ "") ∧
      onFailed 5 ⟨[⟨1, "u1", "", "a", true, none⟩], 2⟩ =
        ⟨[⟨1, "u1", "", "a", true, none⟩], 2⟩ :=
  ⟨(onFailed_invalidates 1 ⟨[⟨1, "u1", "", "a", true, none⟩], 2⟩).1
      ⟨1, "u1", "", "a", true, none⟩ (by decide),
    (onFailed_invalidates 5 ⟨[⟨1, "u1", "", "a", true, none⟩], 2⟩).2 (by decide)⟩

/-- C7: when the directory fetch rejects or returns a status other than
200, the pass makes zero addFeed calls and the Feed Store ends exactly as
it started: no create and no setInvalid happens in that pass. -/
theorem processAllFeeds_fetch_failure_frame (res : Option DirResponse) (st : Store)
    (h : res = none ∨ ∃ r, res = some r ∧ r.status ≠ 200) :
    (processAllFeeds res st).jobs = [] ∧ (processAllFeeds res st).store = st := by
  rcases h with rfl | ⟨r, rfl, hr⟩
  · exact ⟨rfl, rfl⟩
  · simp [processAllFeeds, hr]

/-- Witness for C7: a 500 response leaves a nonempty store unchanged and
enqueues nothing. -/
theorem processAllFeeds_fetch_failure_frame_witness :
    (processAllFeeds (some ⟨500, []⟩) ⟨[⟨1, "u1", "", "a", true, none⟩], 2⟩).jobs = [] ∧
      (processAllFeeds (some ⟨500, []⟩) ⟨[⟨1, "u1", "", "a", true, none⟩], 2⟩).store =
        ⟨[⟨1, "u1", "", "a", true, none⟩], 2⟩ :=
  processAllFeeds_fetch_failure_frame (some ⟨500, []⟩) ⟨[⟨1, "u1", "", "a", true, none⟩], 2⟩
    (Or.inr ⟨⟨500, []⟩, rfl, by decide⟩)

/-- C5 counterexample: against a backend whose defensive create rejects
with DuplicateUrl after a byUrl miss (the race the spec's section 4.2
defends against), the updateFeed control flow returns the error instead of
resolving the source to the existing feed: the source is not treated as
already existing. -/
theorem updateFeedWith_duplicateUrl_not_resolved :
    updateFeedWith (fun _ => none) (fun _ => .error .duplicateUrl)
        (fun _ => some ⟨7, "u1", "etag-a", "alice", true, none⟩) ⟨"u1", "", "alice"⟩ =
      .error .duplicateUrl ∧
      updateFeedWith (fun _ => none) (fun _ => .error .duplicateUrl)
        (fun _ => some ⟨7, "u1", "etag-a", "alice", true, none⟩) ⟨"u1", "", "alice"⟩ ≠
      .ok (some ⟨7, "u1", "etag-a", "alice", true, none⟩) := by
  decide

/-- C5 amended: updateFeed contains no handler for DuplicateUrl, so
whenever create rejects after a byUrl miss the error propagates out of the
reconciliation step unchanged (aborting the pass at the catch boundary)
instead of being treated as already exists. -/
theorem updateFeedWith_propagates_create_error (lookupUrl : String → Option Feed)
    (createFeed : FeedData → Except Err Nat) (lookupId : Nat → Option Feed)
    (fd : FeedData) (e : Err) (h1 : lookupUrl fd.url = none)
    (h2 : createFeed fd = .error e) :
    updateFeedWith lookupUrl createFeed lookupId fd = .error e := by
  unfold updateFeedWith
  rw [h1, h2]

/-- Witness for the amended C5: a concrete backend whose create rejects
makes updateFeed propagate DuplicateUrl. -/
theorem updateFeedWith_propagates_create_error_witness :
    updateFeedWith (fun _ => none) (fun _ => .error .duplicateUrl) (fun _ => none)
      ⟨"u1", "", "a"⟩ = .error .duplicateUrl :=
  updateFeedWith_propagates_create_error (fun _ => none) (fun _ => .error .duplicateUrl)
    (fun _ => none) ⟨"u1", "", "a"⟩ .duplicateUrl rfl rfl

/-- C1 counterexample: one feed persisted under url u1 and the same url
re-discovered in the pass. The pass succeeds, the persisted set has the one
distinct id 1 and the discovery resolves to that same id (the final store
is unchanged), so the distinct ids of (persisted union discovered) number
one, yet two addFeed calls are made: the feed is enqueued twice, not
once. -/
theorem processAllFeeds_duplicate_enqueue :
    (processAllFeeds (some ⟨200, [⟨false, [⟨"u1", "", "alice"⟩]⟩]⟩)
        ⟨[⟨1, "u1", "etag-a", "alice", true, none⟩], 2⟩).failed = false ∧
      (processAllFeeds (some ⟨200, [⟨false, [⟨"u1", "", "alice"⟩]⟩]⟩)
        ⟨[⟨1, "u1", "etag-a", "alice", true, none⟩], 2⟩).store =
        ⟨[⟨1, "u1", "etag-a", "alice", true, none⟩], 2⟩ ∧
      (processAllFeeds (some ⟨200, [⟨false, [⟨"u1", "", "alice"⟩]⟩]⟩)
        ⟨[⟨1, "u1", "etag-a", "alice", true, none⟩], 2⟩).jobs = [⟨1⟩, ⟨1⟩] ∧
      ((processAllFeeds (some ⟨200, [⟨false, [⟨"u1", "", "alice"⟩]⟩]⟩)
        ⟨[⟨1, "u1", "etag-a", "alice", true, none⟩], 2⟩).jobs.map Job.id).dedup = [1] ∧
      ((⟨[⟨1, "u1", "etag-a", "alice", true, none⟩], 2⟩ : Store).feeds.map Feed.id).dedup
        = [1] ∧
      (processAllFeeds (some ⟨200, [⟨false, [⟨"u1", "", "alice"⟩]⟩]⟩)
        ⟨[⟨1, "u1", "etag-a", "alice", true, none⟩], 2⟩).jobs.length ≠ 1 := by
  decide

/-- C1 amended: after a successful 200 pass the number of addFeed calls
equals the number of persisted feeds plus the number of flattened
directory elements: one call per occurrence in the concatenated list, so a
feed both persisted and re-discovered is enqueued once per occurrence
rather than once overall. -/
theorem processAllFeeds_enqueue_count (r : DirResponse) (st : Store)
    (hs : r.status = 200)
    (h : (processAllFeeds (some r) st).failed = false) :
    (processAllFeeds (some r) st).jobs.length =
      st.feeds.length + (flattenUsers r.body).length := by
  simp only [processAllFeeds] at h ⊢
  rw [if_pos hs] at h ⊢
  cases hp : processFeeds ((st.all.map fun f => some f.toData) ++ flattenUsers r.body) st with
  | ok pr =>
    obtain ⟨stA, jobs⟩ := pr
    have hlen := processFeeds_ok_length _ _ _ _ hp
    simpa [Store.all] using hlen
  | error tr =>
    obtain ⟨e, stA, jobs⟩ := tr
    rw [hp] at h
    simp at h

/-- Witness for the amended C1: one persisted feed and one new discovery
give two addFeed calls. -/
theorem processAllFeeds_enqueue_count_witness :
    (processAllFeeds (some ⟨200, [⟨false, [⟨"u2", "", "bob"⟩]⟩]⟩)
        ⟨[⟨1, "u1", "etag-a", "alice", true, none⟩], 2⟩).jobs.length =
      (⟨[⟨1, "u1", "etag-a", "alice", true, none⟩], 2⟩ : Store).feeds.length +
        (flattenUsers [⟨false, [⟨"u2", "", "bob"⟩]⟩]).length :=
  processAllFeeds_enqueue_count ⟨200, [⟨false, [⟨"u2", "", "bob"⟩]⟩]⟩
    ⟨[⟨1, "u1", "etag-a", "alice", true, none⟩], 2⟩ rfl (by decide)

/-- C2 evaluated at the failing input: a directory body with one flagged
user owning one feed (N equals 1) and one unflagged user owning one feed
(M equals 1). The flatMap maps the flagged user to null and keeps it, so
two elements, not M equals 1, enter the reconciliation list; the pass then
aborts through its catch when updateFeed dereferences the null. The second
half of the claim does hold: no record or job for the flagged user url
exists afterwards. -/
theorem flattenUsers_flagged_null_element :
    flattenUsers [⟨true, [⟨"uF", "", "flagged"⟩]⟩, ⟨false, [⟨"uM", "", "bob"⟩]⟩] =
        [none, some ⟨"uM", "", "bob"⟩] ∧
      (flattenUsers [⟨true, [⟨"uF", "", "flagged"⟩]⟩, ⟨false, [⟨"uM", "", "bob"⟩]⟩]).length ≠ 1 ∧
      (processAllFeeds
        (some ⟨200, [⟨true, [⟨"uF", "", "flagged"⟩]⟩, ⟨false, [⟨"uM", "", "bob"⟩]⟩]⟩)
        ⟨[], 0⟩).failed = true ∧
      ((processAllFeeds
        (some ⟨200, [⟨true, [⟨"uF", "", "flagged"⟩]⟩, ⟨false, [⟨"uM", "", "bob"⟩]⟩]⟩)
        ⟨[], 0⟩).store.feeds.all fun f => !(f.url == "uF")) = true ∧
      ((processAllFeeds
        (some ⟨200, [⟨true, [⟨"uF", "", "flagged"⟩]⟩, ⟨false, [⟨"uM", "", "bob"⟩]⟩]⟩)
        ⟨[], 0⟩).jobs.all fun _ => false) = true := by
  decide

/-- C9 counterexample: a trace with two triggers and no settle in between
is reachable, ending with two passes in flight: a start trigger arriving
while a pass is Running starts a second interleaved pass instead of being
a no-op. -/
theorem ctrl_two_passes_reachable : CtrlReachable 2 :=
  Relation.ReflTransGen.tail
    (Relation.ReflTransGen.tail Relation.ReflTransGen.refl (CtrlStep.trigger 0))
    (CtrlStep.trigger 1)

/-- C9 amended: the code enforces no mutual exclusion between passes at
all: triggers are unconditional, so every number of simultaneously Running
passes is reachable; any single-pass behavior comes only from the external
timing of drained events, not from the controller. -/
theorem ctrl_any_count_reachable (n : Nat) : CtrlReachable n := by
  induction n with
  | zero => exact Relation.ReflTransGen.refl
  | succ k ih => exact Relation.ReflTransGen.tail ih (CtrlStep.trigger k)

/-- C10: on every run of processFeeds, successful or failing, each addFeed
call passes an object carrying only the id field, equal to the id of the
feed updateFeed resolved for the corresponding input element, in order: on
a successful run the jobs are exactly the resolved ids of all elements,
and on a failing run they are exactly the resolved ids of the
successfully processed prefix of the input. The queue never receives the
raw discovery payload or an id other than a completed resolution. -/
theorem processFeeds_enqueues_resolved_ids (feeds : List (Option FeedData)) (st : Store) :
    (∀ st1 jobs, processFeeds feeds st = .ok (st1, jobs) →
      ∃ fs, resolveAllFeeds feeds st = some (fs, st1) ∧
        jobs = fs.map (fun f => Job.mk f.id)) ∧
    (∀ e st1 jobs, processFeeds feeds st = .error (e, st1, jobs) →
      ∃ k fs stk, resolveAllFeeds (feeds.take k) st = some (fs, stk) ∧
        jobs = fs.map (fun f => Job.mk f.id)) :=
  ⟨fun st1 jobs h => processFeeds_resolves feeds st st1 jobs h,
    fun e st1 jobs h => processFeeds_error_jobs feeds st e st1 jobs h⟩

/-- Witness for C10, exercising both conjuncts: a single fresh discovery is
enqueued as exactly the id its resolution created, and a failing run (a
null element from a flagged user sitting mid-list) still only enqueues the
resolved id of the element processed before the failure. -/
theorem processFeeds_enqueues_resolved_ids_witness :
    (∃ fs, resolveAllFeeds [some ⟨"u1", "", "a"⟩] ⟨[], 0⟩ =
        some (fs, ⟨[⟨0, "u1", "", "a", true, none⟩], 1⟩) ∧
      [Job.mk 0] = fs.map (fun f => Job.mk f.id)) ∧
    (∃ k fs stk, resolveAllFeeds
        ([some ⟨"u1", "", "a"⟩, none, some ⟨"u2", "", "b"⟩].take k) ⟨[], 0⟩ =
          some (fs, stk) ∧
      [Job.mk 0] = fs.map (fun f => Job.mk f.id)) :=
  ⟨(processFeeds_enqueues_resolved_ids [some ⟨"u1", "", "a"⟩] ⟨[], 0⟩).1
      ⟨[⟨0, "u1", "", "a", true, none⟩], 1⟩ [Job.mk 0] (by decide),
    (processFeeds_enqueues_resolved_ids
        [some ⟨"u1", "", "a"⟩, none, some ⟨"u2", "", "b"⟩] ⟨[], 0⟩).2
      .nullDeref ⟨[⟨0, "u1", "", "a", true, none⟩], 1⟩ [Job.mk 0] (by decide)⟩
